import Mathlib

/-!
Shallow embedding of `src/youtube_trending.py` (a YouTube "most popular"
fetcher/filter/printer) and proofs of the specification claims about it.

Conventions of the embedding:
* Python dicts for video items become `Video` / `Snippet` structures with
  `Option` fields (a missing key is `none`); `dict.get(k, default)` becomes
  `Option.getD`.
* `datetime` values become `PyDateTime`: microseconds of the wall-clock value
  on the proleptic Gregorian calendar (since 0001-01-01 00:00:00) together
  with an optional UTC offset in microseconds (`none` = a naive datetime).
* `datetime.datetime.fromisoformat` is modelled by `fromisoformat` below,
  following CPython's (pre-3.11) `_parse_isoformat_date` /
  `_parse_isoformat_time` algorithm; `int` on a two-character slice is
  modelled as two ASCII digits.
* Printing becomes returning lists of output events; raising an uncaught
  exception becomes `Except.error`.
* The network request `request.execute()` inside `fetch_popular_videos` is
  an input of the embedded function: an `Except ApiError` value standing for
  what the call would return or raise.
-/

namespace YoutubeTrending

/-! ### Data model: video items -/

/-- The `snippet` sub-dict of a video item: the two keys the program reads. -/
structure Snippet where
  publishedAt : Option String
  title : Option String
  deriving Repr, DecidableEq

/-- A video item as the program reads it: keys `id` and `snippet`
(statistics/contentDetails are never read and are omitted). -/
structure Video where
  id : Option String
  snippet : Option Snippet
  deriving Repr, DecidableEq

/-- Model of `video.get("snippet", {})`: a missing snippet behaves as an
empty dict. -/
def Video.snippetD (v : Video) : Snippet :=
  v.snippet.getD { publishedAt := none, title := none }

/-- Model of `video.get("snippet", {}).get("publishedAt")`. -/
def Video.publishedAtRaw (v : Video) : Option String :=
  v.snippetD.publishedAt

/-! ### Calendar arithmetic (proleptic Gregorian, as Python `datetime`) -/

/-- Gregorian leap-year rule, as `calendar.isleap`. -/
def isLeapYear (y : Nat) : Bool :=
  y % 4 == 0 && (y % 100 != 0 || y % 400 == 0)

/-- Days in month `m` (1-12) of year `y`; 0 for an out-of-range month. -/
def daysInMonth (y m : Nat) : Nat :=
  match m with
  | 1 => 31 | 2 => if isLeapYear y then 29 else 28
  | 3 => 31 | 4 => 30 | 5 => 31 | 6 => 30
  | 7 => 31 | 8 => 31 | 9 => 30 | 10 => 31 | 11 => 30 | 12 => 31
  | _ => 0

/-- Days in year `y` strictly before month `m` (for `m` in 1-12). -/
def daysBeforeMonth (y m : Nat) : Nat :=
  let leap := if isLeapYear y then 1 else 0
  match m with
  | 1 => 0 | 2 => 31 | 3 => 59 + leap | 4 => 90 + leap | 5 => 120 + leap
  | 6 => 151 + leap | 7 => 181 + leap | 8 => 212 + leap | 9 => 243 + leap
  | 10 => 273 + leap | 11 => 304 + leap | 12 => 334 + leap
  | _ => 0

/-- Days before January 1 of year `y` counted from 0001-01-01 (`y ≥ 1`). -/
def daysBeforeYear (y : Nat) : Nat :=
  let p := y - 1
  365 * p + p / 4 + p / 400 - p / 100

/-- Day number of a civil date, with 0001-01-01 as day 0. -/
def ordinalDay (y m d : Nat) : Nat :=
  daysBeforeYear y + daysBeforeMonth y m + (d - 1)

/-- Microseconds of a wall-clock datetime since 0001-01-01 00:00:00. -/
def wallMicroOf (y mo d hh mi ss ff : Nat) : Nat :=
  (((ordinalDay y mo d * 24 + hh) * 60 + mi) * 60 + ss) * 1000000 + ff

/-- A Python `datetime.datetime`: wall-clock microseconds plus an optional
UTC offset (`none` models a naive datetime). -/
structure PyDateTime where
  wallMicro : Int
  offsetMicro : Option Int
  deriving Repr, DecidableEq

/-! ### `datetime.fromisoformat`, modelled from CPython's algorithm -/

/-- Digit run to a number (used on slices already checked to be digits). -/
def digitsVal (l : List Char) : Nat :=
  l.foldl (fun a c => 10 * a + (c.toNat - 48)) 0

/-- Model of `int(s[pos:pos+2])` on exactly two ASCII digits, returning
the rest. -/
def parseTwoDigits : List Char → Option (Nat × List Char)
  | c1 :: c2 :: rest =>
      if c1.isDigit && c2.isDigit then
        some ((c1.toNat - 48) * 10 + (c2.toNat - 48), rest)
      else none
  | _ => none

/-- CPython `_parse_hh_mm_ss_ff`: parses `HH[:MM[:SS[.fff[fff]]]]` into
(hours, minutes, seconds, microseconds); omitted components are 0. -/
def parseHMSF (s : List Char) : Option (Nat × Nat × Nat × Nat) := do
  let (h, r1) ← parseTwoDigits s
  match r1 with
  | [] => some (h, 0, 0, 0)
  | ':' :: r2 => do
    let (m, r3) ← parseTwoDigits r2
    match r3 with
    | [] => some (h, m, 0, 0)
    | ':' :: r4 => do
      let (sec, r5) ← parseTwoDigits r4
      match r5 with
      | [] => some (h, m, sec, 0)
      | '.' :: r6 =>
          if r6.all Char.isDigit then
            if r6.length == 3 then some (h, m, sec, digitsVal r6 * 1000)
            else if r6.length == 6 then some (h, m, sec, digitsVal r6)
            else none
          else none
      | _ => none
    | _ => none
  | _ => none

/-- CPython `_parse_isoformat_date`: exactly `YYYY-MM-DD`, range-checked as
the `datetime` constructor would (year 1-9999, valid month and day). -/
def parseIsoDate (s : List Char) : Option (Nat × Nat × Nat) :=
  match s with
  | [y1, y2, y3, y4, '-', m1, m2, '-', d1, d2] =>
      if [y1, y2, y3, y4, m1, m2, d1, d2].all Char.isDigit then
        let y := digitsVal [y1, y2, y3, y4]
        let m := digitsVal [m1, m2]
        let d := digitsVal [d1, d2]
        if 1 ≤ y ∧ 1 ≤ m ∧ m ≤ 12 ∧ 1 ≤ d ∧ d ≤ daysInMonth y m then
          some (y, m, d)
        else none
      else none
  | _ => none

/-- CPython `_parse_isoformat_time`: a `parseHMSF` time, optionally followed
by a timezone introduced by the first `-` (else the first `+`) in the string;
the tz part must be 5, 8 or 15 characters (`HH:MM[:SS[.ffffff]]`) and the
resulting offset must be strictly within ±24h (the `timezone` constructor's
check).  Returns time components and the optional offset in microseconds. -/
def parseIsoTime (tstr : List Char) :
    Option ((Nat × Nat × Nat × Nat) × Option Int) := do
  if tstr.length < 2 then none
  else
    let tzPos : Option Nat :=
      match tstr.findIdx? (· == '-') with
      | some i => some i
      | none => tstr.findIdx? (· == '+')
    match tzPos with
    | none => do
        let c ← parseHMSF tstr
        some (c, none)
    | some i => do
        let timestr := tstr.take i
        let tzstr := tstr.drop (i + 1)
        let c ← parseHMSF timestr
        if tzstr.length == 5 || tzstr.length == 8 || tzstr.length == 15 then
          let (th, tm, ts, tf) ← parseHMSF tzstr
          let mag : Nat := ((th * 60 + tm) * 60 + ts) * 1000000 + tf
          let sign : Int := if tstr.get? i == some '-' then -1 else 1
          if mag < 24 * 3600 * 1000000 then
            some (c, some (sign * (mag : Int)))
          else none
        else none

/-- Model of `datetime.datetime.fromisoformat` (CPython pre-3.11 algorithm, which the
source's manual `Z` rewrite targets): the first 10 characters must be a valid
`YYYY-MM-DD`; characters from index 11 on, when present, are the time part
(the separator at index 10 is not inspected); time fields are range-checked
as the `datetime` constructor would.  `none` models `ValueError`. -/
def fromisoformat (s : String) : Option PyDateTime := do
  let cs := s.data
  let (y, mo, d) ← parseIsoDate (cs.take 10)
  let tstr := cs.drop 11
  if tstr.isEmpty then
    some { wallMicro := (wallMicroOf y mo d 0 0 0 0 : Int), offsetMicro := none }
  else do
    let ((hh, mi, ss, ff), off) ← parseIsoTime tstr
    if hh ≤ 23 ∧ mi ≤ 59 ∧ ss ≤ 59 then
      some { wallMicro := (wallMicroOf y mo d hh mi ss ff : Int), offsetMicro := off }
    else none

/-- The source's trailing-`Z` normalization: `s[:-1] + "+00:00"` when
`s.endswith("Z")`, else `s` unchanged (written on the character list so
that it evaluates by kernel reduction). -/
def normalizeZ (s : String) : String :=
  match s.data.getLast? with
  | some c => if c = 'Z' then ⟨s.data.dropLast ++ "+00:00".data⟩ else s
  | none => s

/-- The UTC instant (microseconds) of an aware datetime with offset `off`. -/
def instantOf (wall off : Int) : Int := wall - off

/-! ### `filter_videos_by_time` -/

/-- The payload of the diagnostic printed when a timestamp fails to parse:
`Error parsing date string '<dateStr>' for video ID '<videoId>'` (the code
appends the exception text, which is not modelled). -/
structure ParseErrorLog where
  dateStr : String
  videoId : String
  deriving Repr, DecidableEq

/-- The printed diagnostic line, minus the trailing exception text. -/
def ParseErrorLog.message (l : ParseErrorLog) : String :=
  "Error parsing date string '" ++ l.dateStr ++ "' for video ID '" ++
    l.videoId ++ "'"

/-- What one iteration of the filter loop does with one video. -/
inductive Fate
  | drop
  | keep
  | logged (log : ParseErrorLog)
  | raised
  deriving Repr, DecidableEq

/-- The body of the loop in `filter_videos_by_time` for one video:
missing or empty (falsy) `publishedAt` skips silently; a string that fails
`fromisoformat` after the `Z` rewrite is logged (`ValueError` caught) and
skipped; a naive parse result is `raised` (comparing a naive datetime to the
aware threshold raises `TypeError`, which the `except ValueError` clause does
not catch); otherwise the video is kept iff its instant is `≥` threshold. -/
def classifyVideo (thresholdMicro : Int) (v : Video) : Fate :=
  match v.publishedAtRaw with
  | none => .drop
  | some s =>
      if s.data.isEmpty then .drop
      else
        let s2 := normalizeZ s
        match fromisoformat s2 with
        | none => .logged { dateStr := s2, videoId := v.id.getD "N/A" }
        | some dt =>
            match dt.offsetMicro with
            | none => .raised
            | some off =>
                if thresholdMicro ≤ instantOf dt.wallMicro off then .keep
                else .drop

/-- The threshold `now - timedelta(hours=hours)` in microseconds. -/
def thresholdMicro (hours nowMicro : Int) : Int :=
  nowMicro - hours * 3600000000

/-- The filter loop: kept videos in order, diagnostics in order; `.error`
models the uncaught `TypeError`, carrying the diagnostics printed before. -/
def filterGo (thresholdMicro : Int) :
    List Video → Except (List ParseErrorLog) (List Video × List ParseErrorLog)
  | [] => .ok ([], [])
  | v :: rest =>
      match classifyVideo thresholdMicro v with
      | .drop => filterGo thresholdMicro rest
      | .keep =>
          match filterGo thresholdMicro rest with
          | .ok (vs, ls) => .ok (v :: vs, ls)
          | .error ls => .error ls
      | .logged l =>
          match filterGo thresholdMicro rest with
          | .ok (vs, ls) => .ok (vs, l :: ls)
          | .error ls => .error (l :: ls)
      | .raised => .error []

/-- The function `filter_videos_by_time(videos, hours)` with the call-time UTC instant
`nowMicro` made explicit; `threshold = now - timedelta(hours=hours)`. -/
def filter_videos_by_time (videos : List Video) (hours : Int) (nowMicro : Int) :
    Except (List ParseErrorLog) (List Video × List ParseErrorLog) :=
  filterGo (thresholdMicro hours nowMicro) videos

/-! ### `display_videos` -/

/-- One printed unit of `display_videos` output: the no-results line, the
header line, the dashed separator, or one two-line video entry. -/
inductive OutLine
  | noVideos
  | header (n : Int) (hours : Int) (region : String)
  | separator
  | entry (rank : Nat) (title : String) (url : String)
  deriving Repr, DecidableEq

/-- Python slicing `l[:n]` for an `int` bound `n` (negative counts from the
end, clamped at 0). -/
def pySliceTo {α : Type} (l : List α) (n : Int) : List α :=
  if n < 0 then l.take ((l.length : Int) + n).toNat else l.take n.toNat

/-- One entry of the loop body of `display_videos`, from the 0-based
`enumerate` index and the video: rank `i+1`, `snippet.title` with the
`"No Title"` default, and the constructed watch URL. -/
def entryOf (p : Nat × Video) : OutLine :=
  .entry (p.1 + 1) (p.2.snippetD.title.getD "No Title")
    ("https://www.youtube.com/watch?v=" ++ p.2.id.getD "")

/-- The function `display_videos(videos, count, display_hours, display_region)`: output as
a list of `OutLine` events, mirroring the prints of the source. -/
def display_videos (videos : List Video) (count : Int)
    (displayHours : Int) (displayRegion : String) : List OutLine :=
  if videos.isEmpty then [.noVideos]
  else
    let num : Int := min (videos.length : Int) count
    [.header num displayHours displayRegion, .separator] ++
      (pySliceTo videos num).enum.map entryOf

/-! ### `get_youtube_service` and `fetch_popular_videos` -/

/-- What `request.execute()` can raise: `googleapiclient.errors.HttpError`
(an API-level HTTP error response) or any other transport-level exception
(socket/connection errors), which is not an `HttpError`. -/
inductive ApiError
  | httpError (msg : String)
  | transportError (msg : String)
  deriving Repr, DecidableEq

/-- The function `fetch_popular_videos`, with `request.execute()`'s outcome passed in:
`.ok resp` is a response dict whose optional `items` key holds the list
(`response.get("items", [])`); the `try` block catches exactly
`HttpError`, printing a message and returning `[]`; any other exception
propagates.  Result: `.ok (items, printed lines)` or `.error` for an
uncaught exception. -/
def fetch_popular_videos (execute : Except ApiError (Option (List Video))) :
    Except ApiError (List Video × List String) :=
  match execute with
  | .ok resp => .ok (resp.getD [], [])
  | .error (.httpError m) => .ok ([], ["An API error occurred: " ++ m])
  | .error (.transportError m) => .error (.transportError m)

/-- The opaque client handle returned by `googleapiclient.discovery.build`. -/
structure YoutubeService where
  developerKey : String
  deriving Repr, DecidableEq

/-- The `ValueError` message raised when the API key is missing or empty. -/
def configErrorMsg : String :=
  "API key not found. Please set YOUTUBE_API_KEY in your .env file or environment."

/-- Python truthiness of `os.getenv` results: `not API_KEY` is true exactly
when the variable is unset (`None`) or set to the empty string. -/
def pyFalsyStr : Option String → Bool
  | none => true
  | some s => s.isEmpty

/-- The function `get_youtube_service()`: raises `ValueError` (modelled as `.error`) when
`API_KEY` is falsy, else builds the service handle (no network call). -/
def get_youtube_service (apiKey : Option String) : Except String YoutubeService :=
  if pyFalsyStr apiKey then .error configErrorMsg
  else .ok { developerKey := apiKey.getD "" }

/-! ### `main` -/

/-- The parsed CLI arguments (`argparse`, all `int`-typed except region). -/
structure Args where
  region : String
  hours : Int
  fetch : Int
  count : Int
  deriving Repr, DecidableEq

/-- Observable trace of one `main()` run: how many network requests were
issued, the plain `print` messages in order, the filter's diagnostics, the
argument tuple `display_videos` was called with (if it was), its output, and
whether an exception escaped `main`. -/
structure MainTrace where
  networkCalls : Nat
  printedMessages : List String
  filterLogs : List ParseErrorLog
  displayCall : Option (List Video × Int × Int × String)
  displayOutput : List OutLine
  raised : Bool
  deriving Repr, DecidableEq

/-- The function `main()`, with the environment's API key, the parsed arguments, the
network's behaviour (`execute`) and the current UTC instant passed in.
Stage order is exactly the source's: credential check (its `ValueError`
caught and printed, then return), fetch (the one network call), emptiness
check, time filter, emptiness check, display.  The `if not youtube_service`
branch of the source is unreachable (`build` returns a truthy object) and
is not modelled. -/
def main (apiKey : Option String) (args : Args)
    (execute : Except ApiError (Option (List Video))) (nowMicro : Int) :
    MainTrace :=
  match get_youtube_service apiKey with
  | .error msg =>
      { networkCalls := 0, printedMessages := [msg], filterLogs := [],
        displayCall := none, displayOutput := [], raised := false }
  | .ok _service =>
      match fetch_popular_videos execute with
      | .error _ =>
          { networkCalls := 1, printedMessages := [], filterLogs := [],
            displayCall := none, displayOutput := [], raised := true }
      | .ok (videos, fetchMsgs) =>
          if videos.isEmpty then
            { networkCalls := 1,
              printedMessages :=
                fetchMsgs ++
                  ["No popular videos found for region " ++ args.region ++ "."],
              filterLogs := [], displayCall := none, displayOutput := [],
              raised := false }
          else
            match filter_videos_by_time videos args.hours nowMicro with
            | .error logsSoFar =>
                { networkCalls := 1, printedMessages := fetchMsgs,
                  filterLogs := logsSoFar, displayCall := none,
                  displayOutput := [], raised := true }
            | .ok (filtered, flogs) =>
                if filtered.isEmpty then
                  { networkCalls := 1,
                    printedMessages :=
                      fetchMsgs ++
                        ["No videos found published in the last " ++
                          toString args.hours ++ " hours for region " ++
                          args.region ++ "."],
                    filterLogs := flogs, displayCall := none,
                    displayOutput := [], raised := false }
                else
                  { networkCalls := 1, printedMessages := fetchMsgs,
                    filterLogs := flogs,
                    displayCall :=
                      some (filtered, args.count, args.hours, args.region),
                    displayOutput :=
                      display_videos filtered args.count args.hours args.region,
                    raised := false }

/-! ### Derived predicates and concrete fixtures -/

/-- A video's `publishedAt` parses (after the `Z` rewrite) to an aware
datetime whose UTC instant is at or after the threshold: exactly the
condition under which the filter loop keeps it. -/
def withinWindow (t : Int) (v : Video) : Prop :=
  ∃ s dt off, v.publishedAtRaw = some s ∧
    fromisoformat (normalizeZ s) = some dt ∧ dt.offsetMicro = some off ∧
    t ≤ instantOf dt.wallMicro off

/-- Number of video entries among the output lines. -/
def countEntries (out : List OutLine) : Nat :=
  out.countP fun l => match l with | .entry _ _ _ => true | _ => false

/-- Fixture: a video published at the UTC instant 2024-01-01T00:00:00Z. -/
def vidZ : Video :=
  { id := some "a",
    snippet := some { publishedAt := some "2024-01-01T00:00:00Z",
                      title := some "A" } }

/-- Fixture: a video whose `publishedAt` is malformed (`"xZ"`). -/
def vidBad : Video :=
  { id := some "b",
    snippet := some { publishedAt := some "xZ", title := some "B" } }

/-- Fixture: a video with no `snippet` key at all. -/
def vidNoSnippet : Video := { id := some "c", snippet := none }

/-- Fixture: the UTC instant 2024-01-01T06:00:00Z in microseconds. -/
def exampleNow : Int := (wallMicroOf 2024 1 1 6 0 0 0 : Int)

/-- Fixture: a video published at 2023-12-31T18:00:00Z, which is exactly
`exampleNow - 12 hours`: on the window boundary. -/
def vidBoundary : Video :=
  { id := some "d",
    snippet := some { publishedAt := some "2023-12-31T18:00:00Z",
                      title := some "D" } }

/-! ### Helper lemmas about the filter loop -/

/-- A string whose character list is empty is the empty string. -/
theorem string_eq_empty_of_data_isEmpty {s : String}
    (h : s.data.isEmpty = true) : s = "" := by
  cases s with
  | mk data =>
      cases data with
      | nil => rfl
      | cons a l => simp [List.isEmpty] at h

/-- Every video in a successful filter output was classified `keep`. -/
theorem filterGo_ok_mem_keep {t : Int} {vs out : List Video}
    {logs : List ParseErrorLog} (h : filterGo t vs = .ok (out, logs))
    {v : Video} (hv : v ∈ out) : classifyVideo t v = .keep := by
  induction vs generalizing out logs with
  | nil =>
      simp only [filterGo, Except.ok.injEq, Prod.mk.injEq] at h
      rw [← h.1] at hv
      simp at hv
  | cons a rest ih =>
      rw [filterGo] at h
      cases hc : classifyVideo t a with
      | drop => rw [hc] at h; exact ih h hv
      | keep =>
          rw [hc] at h
          cases hrec : filterGo t rest with
          | ok p =>
              rw [hrec] at h
              simp only [Except.ok.injEq, Prod.mk.injEq] at h
              rw [← h.1] at hv
              rcases List.mem_cons.mp hv with hva | hvm
              · rw [hva]; exact hc
              · exact ih (by rw [hrec]) hvm
          | error ls => rw [hrec] at h; simp at h
      | logged l =>
          rw [hc] at h
          cases hrec : filterGo t rest with
          | ok p =>
              rw [hrec] at h
              simp only [Except.ok.injEq, Prod.mk.injEq] at h
              rw [← h.1] at hv
              exact ih (by rw [hrec]) hv
          | error ls => rw [hrec] at h; simp at h
      | raised => rw [hc] at h; simp at h

/-- Every input video classified `keep` survives a successful filter run. -/
theorem filterGo_ok_keep_mem {t : Int} {vs out : List Video}
    {logs : List ParseErrorLog} (h : filterGo t vs = .ok (out, logs))
    {v : Video} (hv : v ∈ vs) (hk : classifyVideo t v = .keep) : v ∈ out := by
  induction vs generalizing out logs with
  | nil => simp at hv
  | cons a rest ih =>
      rw [filterGo] at h
      rcases List.mem_cons.mp hv with hva | hvm
      · subst hva
        rw [hk] at h
        cases hrec : filterGo t rest with
        | ok p =>
            rw [hrec] at h
            simp only [Except.ok.injEq, Prod.mk.injEq] at h
            rw [← h.1]
            exact List.mem_cons_self v p.1
        | error ls => rw [hrec] at h; simp at h
      · cases hc : classifyVideo t a with
        | drop => rw [hc] at h; exact ih h hvm
        | keep =>
            rw [hc] at h
            cases hrec : filterGo t rest with
            | ok p =>
                rw [hrec] at h
                simp only [Except.ok.injEq, Prod.mk.injEq] at h
                rw [← h.1]
                exact List.mem_cons_of_mem a (ih (by rw [hrec]) hvm)
            | error ls => rw [hrec] at h; simp at h
        | logged l =>
            rw [hc] at h
            cases hrec : filterGo t rest with
            | ok p =>
                rw [hrec] at h
                simp only [Except.ok.injEq, Prod.mk.injEq] at h
                rw [← h.1]
                exact ih (by rw [hrec]) hvm
            | error ls => rw [hrec] at h; simp at h
        | raised => rw [hc] at h; simp at h

/-- A successful filter output is a sublist of the input. -/
theorem filterGo_ok_sublist {t : Int} {vs out : List Video}
    {logs : List ParseErrorLog} (h : filterGo t vs = .ok (out, logs)) :
    out.Sublist vs := by
  induction vs generalizing out logs with
  | nil =>
      simp only [filterGo, Except.ok.injEq, Prod.mk.injEq] at h
      rw [← h.1]
  | cons a rest ih =>
      rw [filterGo] at h
      cases hc : classifyVideo t a with
      | drop =>
          rw [hc] at h
          exact List.Sublist.cons a (ih h)
      | keep =>
          rw [hc] at h
          cases hrec : filterGo t rest with
          | ok p =>
              rw [hrec] at h
              simp only [Except.ok.injEq, Prod.mk.injEq] at h
              rw [← h.1]
              exact List.Sublist.cons₂ a (ih (by rw [hrec]))
          | error ls => rw [hrec] at h; simp at h
      | logged l =>
          rw [hc] at h
          cases hrec : filterGo t rest with
          | ok p =>
              rw [hrec] at h
              simp only [Except.ok.injEq, Prod.mk.injEq] at h
              rw [← h.1]
              exact List.Sublist.cons a (ih (by rw [hrec]))
          | error ls => rw [hrec] at h; simp at h
      | raised => rw [hc] at h; simp at h

/-- The filter loop keeps a video exactly when its timestamp parses to an
aware instant at or after the threshold. -/
theorem classifyVideo_keep_iff {t : Int} {v : Video} :
    classifyVideo t v = .keep ↔ withinWindow t v := by
  cases hp : v.publishedAtRaw with
  | none => simp [classifyVideo, withinWindow, hp]
  | some s =>
      by_cases hse : s.data.isEmpty = true
      · have hs := string_eq_empty_of_data_isEmpty hse
        subst hs
        simp [classifyVideo, withinWindow, hp,
          show ("" : String).data.isEmpty = true from rfl,
          show fromisoformat (normalizeZ "") = none from rfl]
      · cases hf : fromisoformat (normalizeZ s) with
        | none => simp [classifyVideo, withinWindow, hp, hse, hf]
        | some dt =>
            cases ho : dt.offsetMicro with
            | none => simp [classifyVideo, withinWindow, hp, hse, hf, ho]
            | some off =>
                by_cases hle : t ≤ instantOf dt.wallMicro off
                · simp [classifyVideo, withinWindow, hp, hse, hf, ho, hle]
                · simp [classifyVideo, withinWindow, hp, hse, hf, ho, hle]

/-- The filter loop step only looks at the head's classification: equal
results on the tails give equal results on equal-headed lists. -/
theorem filterGo_congr_tail {t : Int} {l1 l2 : List Video} (a : Video)
    (h : filterGo t l1 = filterGo t l2) :
    filterGo t (a :: l1) = filterGo t (a :: l2) := by
  rw [filterGo, filterGo, h]

/-- A silently-droppable head disappears from the filter loop. -/
theorem filterGo_cons_drop {t : Int} {v : Video}
    (hd : classifyVideo t v = .drop) (rest : List Video) :
    filterGo t (v :: rest) = filterGo t rest := by
  rw [filterGo, hd]

/-- A list of videos that all classify `keep` filters to itself, with no
diagnostics and no exception. -/
theorem filterGo_all_keep {t : Int} {vs : List Video}
    (h : ∀ v ∈ vs, classifyVideo t v = .keep) :
    filterGo t vs = .ok (vs, []) := by
  induction vs with
  | nil => rfl
  | cons a rest ih =>
      rw [filterGo, h a (List.mem_cons_self a rest),
        ih (fun v hv => h v (List.mem_cons_of_mem a hv))]

/-- Removing one silently-droppable video anywhere in the list leaves the
filter's entire result (output, diagnostics, raising) unchanged. -/
theorem filterGo_middle_drop {t : Int} {v : Video}
    (hd : classifyVideo t v = .drop) (pre post : List Video) :
    filterGo t (pre ++ v :: post) = filterGo t (pre ++ post) := by
  induction pre with
  | nil => simpa using filterGo_cons_drop hd post
  | cons a pre' ih => simpa using filterGo_congr_tail a ih

/-- One `logged` video among all-`keep` videos: the filter returns the others
in order, with exactly that one diagnostic. -/
theorem filterGo_middle_logged {t : Int} {bad : Video} {l : ParseErrorLog}
    (hbad : classifyVideo t bad = .logged l) (pre post : List Video)
    (hpre : ∀ v ∈ pre, classifyVideo t v = .keep)
    (hpost : ∀ v ∈ post, classifyVideo t v = .keep) :
    filterGo t (pre ++ bad :: post) = .ok (pre ++ post, [l]) := by
  induction pre with
  | nil =>
      simp only [List.nil_append]
      rw [filterGo, hbad, filterGo_all_keep hpost]
  | cons a pre' ih =>
      simp only [List.cons_append]
      rw [filterGo, hpre a (List.mem_cons_self a pre'),
        ih (fun v hv => hpre v (List.mem_cons_of_mem a hv))]

/-! ### Claim theorems -/

/-- C1: for every item list and every `windowHours ≥ 0`,
`filter_videos_by_time` never returns an item whose parsed
`snippet.publishedAt` instant is strictly earlier than
`now - windowHours`, and the boundary is inclusive: an item whose parsed
instant equals the threshold exactly is included in the result. -/
theorem filter_never_returns_before_threshold
    (videos : List Video) (hours nowMicro : Int) (_hh : 0 ≤ hours)
    (out : List Video) (logs : List ParseErrorLog)
    (hok : filter_videos_by_time videos hours nowMicro = .ok (out, logs)) :
    (∀ v ∈ out, ∃ s dt off, v.publishedAtRaw = some s ∧
        fromisoformat (normalizeZ s) = some dt ∧ dt.offsetMicro = some off ∧
        ¬ instantOf dt.wallMicro off < thresholdMicro hours nowMicro) ∧
    (∀ v ∈ videos, (∃ s dt off, v.publishedAtRaw = some s ∧
        fromisoformat (normalizeZ s) = some dt ∧ dt.offsetMicro = some off ∧
        instantOf dt.wallMicro off = thresholdMicro hours nowMicro) →
      v ∈ out) := by
  constructor
  · intro v hv
    have hk := filterGo_ok_mem_keep hok hv
    obtain ⟨s, dt, off, h1, h2, h3, h4⟩ := classifyVideo_keep_iff.mp hk
    exact ⟨s, dt, off, h1, h2, h3, not_lt.mpr h4⟩
  · intro v hv ⟨s, dt, off, h1, h2, h3, h4⟩
    exact filterGo_ok_keep_mem hok hv
      (classifyVideo_keep_iff.mpr ⟨s, dt, off, h1, h2, h3, le_of_eq h4.symm⟩)

/-- Witness for C1: a concrete run with one strictly-inside item and one
item exactly on the 12-hour boundary; both survive, and the theorem applies
to place the boundary item in the output. -/
theorem filter_never_returns_before_threshold_witness :
    filter_videos_by_time [vidZ, vidBoundary] 12 exampleNow =
      .ok ([vidZ, vidBoundary], []) ∧ vidBoundary ∈ [vidZ, vidBoundary] := by
  refine ⟨rfl, ?_⟩
  exact (filter_never_returns_before_threshold [vidZ, vidBoundary] 12
      exampleNow (by decide) [vidZ, vidBoundary] [] rfl).2
    vidBoundary (by simp)
    ⟨"2023-12-31T18:00:00Z",
      { wallMicro := (wallMicroOf 2023 12 31 18 0 0 0 : Int),
        offsetMicro := some 0 }, 0, rfl, rfl, rfl, by decide⟩

/-- C4: for every input list and window, a successful run of
`filter_videos_by_time` returns an order-preserving subsequence of the
input: a `List.Sublist` of it. -/
theorem filter_output_is_order_preserving_subsequence
    (videos : List Video) (hours nowMicro : Int) (out : List Video)
    (logs : List ParseErrorLog)
    (hok : filter_videos_by_time videos hours nowMicro = .ok (out, logs)) :
    out.Sublist videos :=
  filterGo_ok_sublist hok

/-- Witness for C4: a concrete three-item run (one kept, one malformed, one
without a snippet) on which the theorem yields the sublist fact. -/
theorem filter_output_is_order_preserving_subsequence_witness :
    filter_videos_by_time [vidZ, vidBad, vidNoSnippet] 12 exampleNow =
      .ok ([vidZ], [{ dateStr := "x+00:00", videoId := "b" }]) ∧
    List.Sublist [vidZ] [vidZ, vidBad, vidNoSnippet] := by
  refine ⟨rfl, ?_⟩
  exact filter_output_is_order_preserving_subsequence
    [vidZ, vidBad, vidNoSnippet] 12 exampleNow [vidZ]
    [{ dateStr := "x+00:00", videoId := "b" }] rfl

/-- C3 counterexample: with the malformed value `"xZ"` (video id `"b"`), the
filter returns the N-1 good items but the diagnostic it logs carries the
rewritten string `"x+00:00"`; the malformed value `"xZ"` itself appears
nowhere in the diagnostic, contrary to the claim's "containing the malformed
value". -/
theorem filter_malformed_log_loses_original_value :
    filter_videos_by_time [vidZ, vidBad] 12 exampleNow =
      .ok ([vidZ], [{ dateStr := "x+00:00", videoId := "b" }]) ∧
    vidBad.publishedAtRaw = some "xZ" ∧
    ¬ List.IsInfix "xZ".data
        (ParseErrorLog.message { dateStr := "x+00:00", videoId := "b" }).data := by
  refine ⟨rfl, rfl, by decide⟩

/-- C3 (amended): with exactly one item whose non-empty `publishedAt` fails
to parse and all other items within the window, the filter never raises and
returns exactly the other N-1 items, logging exactly one diagnostic that
identifies the malformed value *after trailing-Z normalization*
(`Z` rewritten to `+00:00`) together with the item's identifier. -/
theorem filter_single_malformed_logs_normalized
    (hours nowMicro : Int) (pre post : List Video) (bad : Video) (s : String)
    (hbadPub : bad.publishedAtRaw = some s) (hne : s ≠ "")
    (hbadParse : fromisoformat (normalizeZ s) = none)
    (hpre : ∀ v ∈ pre, withinWindow (thresholdMicro hours nowMicro) v)
    (hpost : ∀ v ∈ post, withinWindow (thresholdMicro hours nowMicro) v) :
    filter_videos_by_time (pre ++ bad :: post) hours nowMicro =
      .ok (pre ++ post,
        [{ dateStr := normalizeZ s, videoId := bad.id.getD "N/A" }]) := by
  have hse : ¬ s.data.isEmpty = true :=
    fun h => hne (string_eq_empty_of_data_isEmpty h)
  have hbad : classifyVideo (thresholdMicro hours nowMicro) bad =
      .logged { dateStr := normalizeZ s, videoId := bad.id.getD "N/A" } := by
    simp [classifyVideo, hbadPub, hse, hbadParse]
  exact filterGo_middle_logged hbad pre post
    (fun v hv => classifyVideo_keep_iff.mpr (hpre v hv))
    (fun v hv => classifyVideo_keep_iff.mpr (hpost v hv))

/-- Witness for C3: the concrete two-item run with the malformed `"xZ"`,
instantiating the amended theorem. -/
theorem filter_single_malformed_logs_normalized_witness :
    filter_videos_by_time ([vidZ] ++ vidBad :: []) 12 exampleNow =
      .ok ([vidZ] ++ [],
        [{ dateStr := normalizeZ "xZ", videoId := vidBad.id.getD "N/A" }]) := by
  exact filter_single_malformed_logs_normalized 12 exampleNow [vidZ] []
    vidBad "xZ" rfl (by decide) rfl
    (fun v hv => by
      have hvz : v = vidZ := by simpa using hv
      subst hvz
      exact classifyVideo_keep_iff.mp (by decide))
    (fun v hv => by simp at hv)

/-- C10: an item whose `snippet` is missing, whose `publishedAt` is missing,
or whose `publishedAt` is the empty string is dropped silently: removing it
from the input leaves the filter's entire result — output items, printed
diagnostics and raising behaviour — unchanged. -/
theorem filter_missing_publishedAt_silent
    (hours nowMicro : Int) (pre post : List Video) (v : Video)
    (hmiss : v.snippet = none ∨
      (∃ sn, v.snippet = some sn ∧ sn.publishedAt = none) ∨
      v.publishedAtRaw = some "") :
    filter_videos_by_time (pre ++ v :: post) hours nowMicro =
      filter_videos_by_time (pre ++ post) hours nowMicro := by
  have hd : classifyVideo (thresholdMicro hours nowMicro) v = .drop := by
    rcases hmiss with h0 | ⟨sn, hsn, hpub⟩ | hemp
    · simp [classifyVideo, Video.publishedAtRaw, Video.snippetD, h0]
    · simp [classifyVideo, Video.publishedAtRaw, Video.snippetD, hsn, hpub]
    · simp [classifyVideo, hemp, show ("" : String).data.isEmpty = true from rfl]
  exact filterGo_middle_drop hd pre post

/-- Witness for C10: deleting the snippet-less `vidNoSnippet` from a
concrete list does not change the filter's result. -/
theorem filter_missing_publishedAt_silent_witness :
    filter_videos_by_time ([vidZ] ++ vidNoSnippet :: []) 12 exampleNow =
      filter_videos_by_time ([vidZ] ++ []) 12 exampleNow :=
  filter_missing_publishedAt_silent 12 exampleNow [vidZ] [] vidNoSnippet
    (Or.inl rfl)

/-- Counting entries ignores the header and separator and counts every
mapped `entryOf` line. -/
theorem countEntries_header_sep_entries (n dh : Int) (dr : String)
    (l : List (Nat × Video)) :
    countEntries (.header n dh dr :: .separator :: l.map entryOf) =
      l.length := by
  simp only [countEntries, List.countP_cons, List.countP_map]
  rw [List.countP_eq_length.mpr]
  · rfl
  · intro a _
    simp [Function.comp, entryOf]

/-- C6 counterexample: `display_videos` with 3 items and `displayCount = -1`
prints 2 entries (Python slicing `videos[:-1]`), while
`n = min(len(items), displayCount)` is `-1`: the claimed "exactly
`min(len(items), displayCount)` entries" fails for a negative count. -/
theorem display_negative_count_counterexample :
    countEntries (display_videos [vidZ, vidBoundary, vidBad] (-1) 12 "US") = 2 ∧
    min (([vidZ, vidBoundary, vidBad] : List Video).length : Int) (-1) = -1 ∧
    ((countEntries (display_videos [vidZ, vidBoundary, vidBad] (-1) 12 "US") : Int) ≠
      min (([vidZ, vidBoundary, vidBad] : List Video).length : Int) (-1)) := by
  refine ⟨by decide, by decide, by decide⟩

/-- C6 (amended): for every non-empty item list and every
`displayCount ≥ 0`, `display_videos` prints a header stating
`n = min(len(items), displayCount)` together with the window-hours and
region labels, then exactly `n` entries in input order with ranks `1..n`,
each carrying the item's title (or the `"No Title"` placeholder) and the
URL `https://www.youtube.com/watch?v=<id>`. -/
theorem display_videos_nonneg_count_spec (videos : List Video) (count : Int)
    (dh : Int) (dr : String) (hne : videos ≠ []) (hc : 0 ≤ count) :
    display_videos videos count dh dr =
      .header ((min videos.length count.toNat : Nat) : Int) dh dr ::
        .separator ::
        (videos.take (min videos.length count.toNat)).enum.map entryOf ∧
    countEntries (display_videos videos count dh dr) =
      min videos.length count.toNat := by
  have hne2 : ¬ videos.isEmpty = true := by
    simpa [List.isEmpty_iff] using hne
  have hmin0 : ¬ min (videos.length : Int) count < 0 := by omega
  have htoNat : (min (videos.length : Int) count).toNat =
      min videos.length count.toNat := by omega
  have hmain : display_videos videos count dh dr =
      .header ((min videos.length count.toNat : Nat) : Int) dh dr ::
        .separator ::
        (videos.take (min videos.length count.toNat)).enum.map entryOf := by
    simp only [display_videos, hne2, Bool.false_eq_true, if_false,
      pySliceTo, hmin0, if_false, htoNat]
    rw [show (videos.length : Int) ⊓ count =
        ((min videos.length count.toNat : Nat) : Int) from by omega]
    rfl
  refine ⟨hmain, ?_⟩
  rw [hmain, countEntries_header_sep_entries]
  rw [List.enum_length, List.length_take]
  omega

/-- Witness for C6: `displayCount = 5` with 3 items prints exactly 3 entries
and a header stating 3. -/
theorem display_videos_nonneg_count_spec_witness :
    display_videos [vidZ, vidBoundary, vidBad] 5 12 "US" =
      .header 3 12 "US" :: .separator ::
        ([vidZ, vidBoundary, vidBad].take 3).enum.map entryOf ∧
    countEntries (display_videos [vidZ, vidBoundary, vidBad] 5 12 "US") = 3 := by
  have h := display_videos_nonneg_count_spec [vidZ, vidBoundary, vidBad] 5 12
    "US" (by simp) (by decide)
  simpa using h

/-- C7: on the empty input list `display_videos` prints exactly the single
no-results line and nothing else, for any display count. -/
theorem display_empty_prints_single_no_results_line
    (count dh : Int) (dr : String) :
    display_videos [] count dh dr = [.noVideos] := rfl

/-- Fixture: the orchestrator's default-like argument set
(region US, 12-hour window, fetch 25, display 5). -/
def argsEx : Args := { region := "US", hours := 12, fetch := 25, count := 5 }

/-- C2 counterexample: the `try` block of `fetch_popular_videos` catches only
`googleapiclient.errors.HttpError`; a transport-level exception raised by
`request.execute()` propagates to the caller instead of being reported and
converted to an empty list. -/
theorem fetch_transport_error_propagates :
    fetch_popular_videos (.error (.transportError "Connection reset by peer")) =
      .error (.transportError "Connection reset by peer") := rfl

/-- C2 (amended): when the request raises an API-level `HttpError`,
`fetch_popular_videos` does not propagate it: it prints the error message
and returns the empty list; a non-`HttpError` transport exception, by
contrast, propagates. -/
theorem fetch_swallows_only_httpError (msg : String) :
    fetch_popular_videos (.error (.httpError msg)) =
      .ok ([], ["An API error occurred: " ++ msg]) ∧
    fetch_popular_videos (.error (.transportError msg)) =
      .error (.transportError msg) :=
  ⟨rfl, rfl⟩

/-- C5: with the API-key credential absent or empty, `main` prints exactly
the configuration-error message and stops: no network call is made, no
display happens, and no exception escapes. -/
theorem main_missing_key_halts (apiKey : Option String) (args : Args)
    (execute : Except ApiError (Option (List Video))) (nowMicro : Int)
    (hk : apiKey = none ∨ apiKey = some "") :
    main apiKey args execute nowMicro =
      { networkCalls := 0, printedMessages := [configErrorMsg],
        filterLogs := [], displayCall := none, displayOutput := [],
        raised := false } := by
  rcases hk with h | h <;> subst h <;> rfl

/-- Witness for C5: a concrete run with the key unset. -/
theorem main_missing_key_halts_witness :
    main none argsEx (.ok (some [vidZ])) exampleNow =
      { networkCalls := 0, printedMessages := [configErrorMsg],
        filterLogs := [], displayCall := none, displayOutput := [],
        raised := false } :=
  main_missing_key_halts none argsEx (.ok (some [vidZ])) exampleNow
    (Or.inl rfl)

/-- C8: a trailing `Z` zone designator is treated exactly as `+00:00`: the
rewrite maps `"2024-01-01T00:00:00Z"` to `"2024-01-01T00:00:00+00:00"`, both
parse to the same aware UTC datetime, and with `windowHours = 12` at the
current instant 2024-01-01T06:00:00Z the item is parsed and included. -/
theorem filter_treats_trailing_Z_as_utc :
    normalizeZ "2024-01-01T00:00:00Z" = "2024-01-01T00:00:00+00:00" ∧
    fromisoformat (normalizeZ "2024-01-01T00:00:00Z") =
      some { wallMicro := (wallMicroOf 2024 1 1 0 0 0 0 : Int),
             offsetMicro := some 0 } ∧
    fromisoformat (normalizeZ "2024-01-01T00:00:00Z") =
      fromisoformat "2024-01-01T00:00:00+00:00" ∧
    fromisoformat "2024-01-01T06:00:00+00:00" =
      some { wallMicro := exampleNow, offsetMicro := some 0 } ∧
    filter_videos_by_time [vidZ] 12 exampleNow = .ok ([vidZ], []) :=
  ⟨rfl, rfl, rfl, rfl, rfl⟩

/-- C9: whenever `main` reaches the display stage, the list it hands to
`display_videos` is exactly the time filter's full output on the full
fetched list — the display count is passed alongside, untouched, and is
applied only inside `display_videos`. -/
theorem main_count_applied_after_filter
    (apiKey : Option String) (args : Args)
    (execute : Except ApiError (Option (List Video))) (nowMicro : Int)
    (vids : List Video) (c dh : Int) (r : String)
    (hd : (main apiKey args execute nowMicro).displayCall =
      some (vids, c, dh, r)) :
    (∃ fetched msgs flogs,
        fetch_popular_videos execute = .ok (fetched, msgs) ∧
        filter_videos_by_time fetched args.hours nowMicro = .ok (vids, flogs)) ∧
    c = args.count ∧ dh = args.hours ∧ r = args.region ∧
    (main apiKey args execute nowMicro).displayOutput =
      display_videos vids args.count args.hours args.region := by
  cases hsvc : get_youtube_service apiKey with
  | error m => simp [main, hsvc] at hd
  | ok svc =>
      cases hfetch : fetch_popular_videos execute with
      | error e => simp [main, hsvc, hfetch] at hd
      | ok p =>
          obtain ⟨videos, msgs⟩ := p
          by_cases hv : videos.isEmpty = true
          · simp [main, hsvc, hfetch, hv] at hd
          · cases hfil : filter_videos_by_time videos args.hours nowMicro with
            | error ls => simp [main, hsvc, hfetch, hv, hfil] at hd
            | ok q =>
                obtain ⟨filtered, flogs⟩ := q
                by_cases hf : filtered.isEmpty = true
                · simp [main, hsvc, hfetch, hv, hfil, hf] at hd
                · simp only [main, hsvc, hfetch, hv, hfil, hf,
                    Bool.false_eq_true, if_false] at hd ⊢
                  simp only [Option.some.injEq, Prod.mk.injEq] at hd
                  obtain ⟨h1, h2, h3, h4⟩ := hd
                  subst h1; subst h2; subst h3; subst h4
                  exact ⟨⟨videos, msgs, flogs, rfl, hfil⟩, rfl, rfl, rfl, rfl⟩

/-- Witness for C9: a concrete successful run; the displayed output equals
`display_videos` applied to the filtered list. -/
theorem main_count_applied_after_filter_witness :
    (main (some "key") argsEx (.ok (some [vidZ])) exampleNow).displayCall =
      some ([vidZ], 5, 12, "US") ∧
    (main (some "key") argsEx (.ok (some [vidZ])) exampleNow).displayOutput =
      display_videos [vidZ] 5 12 "US" := by
  refine ⟨rfl, ?_⟩
  exact (main_count_applied_after_filter (some "key") argsEx
    (.ok (some [vidZ])) exampleNow [vidZ] 5 12 "US" rfl).2.2.2.2

end YoutubeTrending
